import Mathlib

/-!
Verification of the train-records command-line utility (src/lab24/duckDB.py)
against its natural-language specification.

The program stores its data in an embedded DuckDB file holding two tables
(`groups`, `trains`) and two sequences (`type_st`, `train_st`).  We embed the
database file as an explicit state (`DBState`) and translate each SQL
statement of the source into a pure function on that state:

* `create_db`    — the idempotent schema initializer, modelled at the catalog
  level (`Catalog`) for the idempotence claims; at the data level a fresh file
  is the state `init_db`.
* `add_train`    — the lookup-or-insert-group pattern followed by the record
  insert.  DuckDB enforces the `FOREIGN KEY(train_id) REFERENCES
  groups(train_id)` clause of the `trains` table (note: the constrained column
  is the record's own primary key `train_id`, not `train_nomer`), so the
  record insert is modelled as fallible (`Option`): it succeeds exactly when
  the next `train_st` value matches some existing group id.  A failed insert
  raises in Python before `conn.commit()` runs, so a failed call leaves the
  committed database state unchanged.
* `select_all`, `select_by_num` — the two read queries, both `INNER JOIN`ing
  on `groups.train_id = trains.train_id`.  Since `train_id` is a primary key,
  each train row joins with at most one group row (`List.find?`).
* `display_trains` — the fixed-width table renderer, with the Python format
  specifiers `{:>4}`, `{:<30}`, `{:^w}` translated character-for-character
  (Python's width specifier pads to a minimum width and never truncates).

The `groups.train_title` column has SQL type TEXT but is only ever written
from the integer `nomer` parameter and only ever compared against such an
integer; since the integer-to-decimal-text mapping is injective we model the
stored text by the integer itself.
-/

namespace DuckTrains

/-- Row of the `groups` table created by `create_db` (duckDB.py lines 64-71):
`train_id INTEGER PRIMARY KEY, train_title TEXT NOT NULL`. -/
structure GroupRow where
  train_id : Nat
  train_title : Int
  deriving DecidableEq

/-- Row of the `trains` table created by `create_db` (duckDB.py lines 74-84):
`train_id INTEGER PRIMARY KEY, train_punkt TEXT NOT NULL, train_nomer INTEGER
NOT NULL, train_time TEXT NOT NULL, FOREIGN KEY(train_id) REFERENCES
groups(train_id)`. -/
structure TrainRow where
  train_id : Nat
  train_punkt : String
  train_nomer : Nat
  train_time : String
  deriving DecidableEq

/-- Contents of the database file: the two tables plus the next value of each
of the two sequences (`type_st` for groups, `train_st` for trains; both
`START 1`). -/
structure DBState where
  groups : List GroupRow
  trains : List TrainRow
  typeSeq : Nat
  trainSeq : Nat
  deriving DecidableEq

/-- State of a freshly created database file after `create_db`: empty tables,
both sequences at 1. -/
def init_db : DBState := ⟨[], [], 1, 1⟩

/-- Projection of a query result row, and equally of one `add_train` request:
the dictionaries built by `select_all` and `select_by_num` with keys
`punkt`, `nomer`, `time`, which are also exactly the renderer's input. -/
structure Row where
  punkt : String
  nomer : Int
  time : String
  deriving DecidableEq

/-- Check of the `FOREIGN KEY(train_id) REFERENCES groups(train_id)` clause
that DuckDB performs when a row with id `tid` is inserted into `trains`:
the id must occur among the group ids. -/
def fk_satisfied (s : DBState) (tid : Nat) : Bool :=
  s.groups.any (fun g => g.train_id == tid)

/-- The `INSERT INTO trains ... VALUES (nextval('train_st'), ?, ?, ?)`
statement of `add_train` (duckDB.py lines 127-133): the new row's id is the
next `train_st` value, and DuckDB rejects the row (the statement raises, so
nothing is committed) unless that id satisfies the foreign-key clause. -/
def insert_train (s : DBState) (punkt : String) (gid : Nat) (time : String) :
    Option DBState :=
  let tid := s.trainSeq
  if fk_satisfied s tid then
    some { s with
            trains := s.trains ++ [⟨tid, punkt, gid, time⟩],
            trainSeq := tid + 1 }
  else
    none

/-- Function `add_train` of duckDB.py (lines 89-136): look the supplied
`nomer` up in `groups.train_title`; reuse the found group id, or insert a new
group with id `nextval('type_st')`; then insert the train record.  `none`
models the statement raising (foreign-key violation), in which case
`conn.commit()` is never reached and the file keeps its previous state. -/
def add_train (s : DBState) (punkt : String) (nomer : Int) (time : String) :
    Option DBState :=
  match s.groups.find? (fun g => g.train_title == nomer) with
  | some g => insert_train s punkt g.train_id time
  | none =>
      let gid := s.typeSeq
      let s' : DBState :=
        { s with groups := s.groups ++ [⟨gid, nomer⟩], typeSeq := gid + 1 }
      insert_train s' punkt gid time

/-- The join step shared by both read queries: `INNER JOIN groups ON
groups.train_id = trains.train_id`, projected as in the two SELECTs to
`(train_punkt, train_title, train_time)`.  `train_id` is the primary key of
`groups`, so each train row matches at most one group row. -/
def join_group (groups : List GroupRow) (tr : TrainRow) : Option Row :=
  (groups.find? (fun g => g.train_id == tr.train_id)).map
    (fun g => ⟨tr.train_punkt, g.train_title, tr.train_time⟩)

/-- Function `select_all` of duckDB.py (lines 139-162). -/
def select_all (s : DBState) : List Row :=
  s.trains.filterMap (join_group s.groups)

/-- Function `select_by_num` of duckDB.py (lines 165-193): same join and
projection as `select_all`, with `WHERE groups.train_title = ?`. -/
def select_by_num (s : DBState) (nomer : Int) : List Row :=
  s.trains.filterMap (fun tr =>
    (s.groups.find? (fun g => g.train_id == tr.train_id)).bind
      (fun g =>
        if g.train_title == nomer then
          some ⟨tr.train_punkt, g.train_title, tr.train_time⟩
        else
          none))

/-- States of the database file reachable by the program's operations: the
fresh file produced by `create_db`, extended by successful `add_train` calls.
A failed call commits nothing and so does not change the file. -/
inductive Reachable : DBState → Prop
  | init : Reachable init_db
  | step {s s' : DBState} {p : String} {n : Int} {t : String} :
      Reachable s → add_train s p n t = some s' → Reachable s'

/-- Sequential execution of a list of `add_train` requests starting from
state `s`; a failed call (uncommitted transaction) leaves the state
unchanged. -/
def run (s : DBState) : List Row → DBState
  | [] => s
  | e :: es => run ((add_train s e.punkt e.nomer e.time).getD s) es

/-!  The table renderer `display_trains` (duckDB.py lines 10-43). -/

/-- Python format specifier `{:<w}` (left align): pad on the right with
spaces to a minimum width of `w`; a string of length at least `w` is returned
unchanged — the specifier never truncates. -/
def fmt_left (w : Nat) (s : String) : String :=
  s ++ String.mk (List.replicate (w - s.length) ' ')

/-- Python format specifier `{:>w}` (right align): pad on the left with
spaces to a minimum width of `w`. -/
def fmt_right (w : Nat) (s : String) : String :=
  String.mk (List.replicate (w - s.length) ' ') ++ s

/-- Python format specifier `{:^w}` (center): the excess width is split with
the extra space, if any, on the right. -/
def fmt_center (w : Nat) (s : String) : String :=
  let pad := w - s.length
  String.mk (List.replicate (pad / 2) ' ') ++ s ++
    String.mk (List.replicate (pad - pad / 2) ' ')

/-- The horizontal rule `line` of `display_trains` (lines 16-21):
`'+-{}-+-{}-+-{}-+-{}-+'.format('-'*4, '-'*30, '-'*20, '-'*20)`. -/
def table_line : String :=
  "+-" ++ String.mk (List.replicate 4 '-') ++ "-+-" ++
    String.mk (List.replicate 30 '-') ++ "-+-" ++
    String.mk (List.replicate 20 '-') ++ "-+-" ++
    String.mk (List.replicate 20 '-') ++ "-+"

/-- The header row of `display_trains` (lines 24-31):
`'| {:^4} | {:^30} | {:^20} | {:^20} |'` applied to the four column
titles. -/
def header_line : String :=
  "| " ++ fmt_center 4 "№" ++ " | " ++ fmt_center 30 "Пункт назначения" ++
    " | " ++ fmt_center 20 "Номер поезда" ++ " | " ++
    fmt_center 20 "Время отправления" ++ " |"

/-- One data row of `display_trains` (lines 34-42):
`'| {:>4} | {:<30} | {:<20} |  {:<19} |'` applied to the 1-based index and
the `punkt`, `nomer`, `time` fields of the record. -/
def data_line (idx : Nat) (r : Row) : String :=
  "| " ++ fmt_right 4 (toString idx) ++ " | " ++ fmt_left 30 r.punkt ++
    " | " ++ fmt_left 20 (toString r.nomer) ++ " |  " ++
    fmt_left 19 r.time ++ " |"

/-- Function `display_trains` of duckDB.py (lines 10-43), with the printed
lines collected into a list: nothing at all for an empty input (`if
trains:`), otherwise rule, header, rule, one data row per record numbered
from 1 (`enumerate(trains, 1)`), and a closing rule. -/
def display_trains : List Row → List String
  | [] => []
  | r :: rs =>
      table_line :: header_line :: table_line ::
        ((List.enumFrom 1 (r :: rs)).map (fun p => data_line p.1 p.2) ++
          [table_line])

/-!  Canonical form of reachable states.  Every successful `add_train` call
is a first occurrence of its `nomer` (a repeated `nomer` makes the record
insert violate the foreign key on `train_id`), so after a history `h` of
successful requests the group ids, the train ids and the `train_nomer`
values are all `1, 2, ..., h.length` in lockstep. -/

/-- Groups table after a history of inserted nomers, ids counting up from
`k`. -/
def mkGroups : Nat → List Int → List GroupRow
  | _, [] => []
  | k, n :: ns => ⟨k, n⟩ :: mkGroups (k + 1) ns

/-- Trains table after a history of successful requests, ids counting up
from `k`; each record's `train_nomer` equals its own id, because the group
created for it by the same call received the same sequence value. -/
def mkTrains : Nat → List Row → List TrainRow
  | _, [] => []
  | k, e :: es => ⟨k, e.punkt, k, e.time⟩ :: mkTrains (k + 1) es

/-- The nomer values of a history of requests. -/
def nomers (h : List Row) : List Int := h.map Row.nomer

/-- Database state after the history `h` of successful `add_train` calls. -/
def stateOf (h : List Row) : DBState :=
  ⟨mkGroups 1 (nomers h), mkTrains 1 h, h.length + 1, h.length + 1⟩
theorem mkGroups_append (n : Int) (ns : List Int) :
    ∀ k : Nat,
      mkGroups k (ns ++ [n]) = mkGroups k ns ++ [⟨k + ns.length, n⟩] := by
  induction ns with
  | nil => intro k; simp [mkGroups]
  | cons m ns ih =>
      intro k
      have h1 : mkGroups k ((m :: ns) ++ [n]) =
          ⟨k, m⟩ :: mkGroups (k + 1) (ns ++ [n]) := rfl
      have h2 : mkGroups k (m :: ns) = ⟨k, m⟩ :: mkGroups (k + 1) ns := rfl
      rw [h1, h2, ih (k + 1), List.cons_append]
      have h3 : k + 1 + ns.length = k + (m :: ns).length := by
        simp only [List.length_cons]
        omega
      rw [h3]

theorem mkTrains_append (e : Row) (es : List Row) :
    ∀ k : Nat,
      mkTrains k (es ++ [e]) =
        mkTrains k es ++ [⟨k + es.length, e.punkt, k + es.length, e.time⟩] := by
  induction es with
  | nil => intro k; simp [mkTrains]
  | cons f es ih =>
      intro k
      have h1 : mkTrains k ((f :: es) ++ [e]) =
          ⟨k, f.punkt, k, f.time⟩ :: mkTrains (k + 1) (es ++ [e]) := rfl
      have h2 : mkTrains k (f :: es) =
          ⟨k, f.punkt, k, f.time⟩ :: mkTrains (k + 1) es := rfl
      rw [h1, h2, ih (k + 1), List.cons_append]
      have h3 : k + 1 + es.length = k + (f :: es).length := by
        simp only [List.length_cons]
        omega
      rw [h3]

theorem mem_map_id_mkGroups (ns : List Int) :
    ∀ k m : Nat,
      m ∈ (mkGroups k ns).map GroupRow.train_id ↔
        k ≤ m ∧ m < k + ns.length := by
  induction ns with
  | nil => intro k m; simp [mkGroups]
  | cons n ns ih =>
      intro k m
      rw [show mkGroups k (n :: ns) = ⟨k, n⟩ :: mkGroups (k + 1) ns from rfl]
      simp only [List.map_cons, List.mem_cons, ih (k + 1), List.length_cons]
      show m = GroupRow.train_id ⟨k, n⟩ ∨ _ ↔ _
      rw [show GroupRow.train_id ⟨k, n⟩ = k from rfl]
      omega

theorem mkGroups_map_title (ns : List Int) :
    ∀ k : Nat, (mkGroups k ns).map GroupRow.train_title = ns := by
  induction ns with
  | nil => intro k; rfl
  | cons n ns ih =>
      intro k
      rw [show mkGroups k (n :: ns) = ⟨k, n⟩ :: mkGroups (k + 1) ns from rfl]
      simp only [List.map_cons, ih (k + 1)]

theorem find?_title_mkGroups_eq_none (n : Int) (ns : List Int) :
    ∀ k : Nat,
      ((mkGroups k ns).find? (fun g => g.train_title == n) = none ↔
        n ∉ ns) := by
  induction ns with
  | nil => intro k; simp [mkGroups]
  | cons m ns ih =>
      intro k
      rw [show mkGroups k (m :: ns) = ⟨k, m⟩ :: mkGroups (k + 1) ns from rfl]
      by_cases hmn : m = n
      · subst hmn
        rw [List.find?_cons_of_pos _ (by simp)]
        simp
      · rw [List.find?_cons_of_neg _ (by simp [hmn])]
        rw [ih (k + 1)]
        simp [Ne.symm hmn]

theorem find?_id_mkGroups (ns : List Int) :
    ∀ k m : Nat, k ≤ m →
      (mkGroups k ns).find? (fun g => g.train_id == m) =
        (ns.get? (m - k)).map (fun x => ⟨m, x⟩) := by
  induction ns with
  | nil => intro k m _; simp [mkGroups]
  | cons n ns ih =>
      intro k m hk
      rw [show mkGroups k (n :: ns) = ⟨k, n⟩ :: mkGroups (k + 1) ns from rfl]
      by_cases hkm : k = m
      · subst hkm
        rw [List.find?_cons_of_pos _ (by simp)]
        rw [show k - k = 0 from by omega]
        rfl
      · rw [List.find?_cons_of_neg _ (by simp [hkm])]
        rw [ih (k + 1) m (by omega)]
        rw [show m - k = (m - (k + 1)) + 1 from by omega]
        rfl

theorem any_id_iff (l : List GroupRow) (tid : Nat) :
    (l.any (fun g => g.train_id == tid) = true) ↔
      tid ∈ l.map GroupRow.train_id := by
  induction l with
  | nil => simp
  | cons g l ih =>
      simp only [List.any_cons, Bool.or_eq_true, beq_iff_eq, ih,
        List.map_cons, List.mem_cons]
      rw [eq_comm]

theorem fk_satisfied_iff (s : DBState) (tid : Nat) :
    fk_satisfied s tid = true ↔ tid ∈ s.groups.map GroupRow.train_id :=
  any_id_iff s.groups tid

theorem mem_mkTrains (tr : TrainRow) (es : List Row) :
    ∀ k : Nat, tr ∈ mkTrains k es →
      tr.train_nomer = tr.train_id ∧ k ≤ tr.train_id ∧
        tr.train_id < k + es.length := by
  induction es with
  | nil => intro k h; simp [mkTrains] at h
  | cons e es ih =>
      intro k h
      rw [show mkTrains k (e :: es) =
          ⟨k, e.punkt, k, e.time⟩ :: mkTrains (k + 1) es from rfl] at h
      rcases List.mem_cons.mp h with h | h
      · subst h
        refine ⟨rfl, Nat.le_refl k, ?_⟩
        simp only [List.length_cons]
        omega
      · have := ih (k + 1) h
        simp only [List.length_cons]
        omega

theorem insert_train_of_fk_false {s : DBState} (p : String) (gid : Nat)
    (t : String) (hfk : fk_satisfied s s.trainSeq = false) :
    insert_train s p gid t = none := by
  simp [insert_train, hfk]

theorem insert_train_of_fk_true {s : DBState} (p : String) (gid : Nat)
    (t : String) (hfk : fk_satisfied s s.trainSeq = true) :
    insert_train s p gid t =
      some { s with
              trains := s.trains ++ [⟨s.trainSeq, p, gid, t⟩],
              trainSeq := s.trainSeq + 1 } := by
  simp [insert_train, hfk]

theorem add_train_found {s : DBState} {p : String} {n : Int} {t : String}
    {g : GroupRow}
    (hfind : s.groups.find? (fun x => x.train_title == n) = some g) :
    add_train s p n t = insert_train s p g.train_id t := by
  unfold add_train
  rw [hfind]

theorem add_train_not_found {s : DBState} {p : String} {n : Int} {t : String}
    (hfind : s.groups.find? (fun x => x.train_title == n) = none) :
    add_train s p n t =
      insert_train
        { s with groups := s.groups ++ [⟨s.typeSeq, n⟩],
                 typeSeq := s.typeSeq + 1 }
        p s.typeSeq t := by
  unfold add_train
  rw [hfind]

/-- Behaviour of `add_train` on a canonical state: a repeated `nomer` makes
the record insert violate the foreign key on `train_id` (the fresh record id
`h.length + 1` matches no group id) and the call fails; a fresh `nomer`
creates group and record under the same sequence value and extends the
history. -/
theorem add_train_stateOf (h : List Row) (p : String) (n : Int) (t : String) :
    add_train (stateOf h) p n t =
      if n ∈ nomers h then none else some (stateOf (h ++ [⟨p, n, t⟩])) := by
  have hlen : (nomers h).length = h.length := List.length_map _ _
  have hgroups : (stateOf h).groups = mkGroups 1 (nomers h) := rfl
  have htype : (stateOf h).typeSeq = h.length + 1 := rfl
  have htrainseq : (stateOf h).trainSeq = h.length + 1 := rfl
  by_cases hn : n ∈ nomers h
  · rw [if_pos hn]
    cases hfind : (stateOf h).groups.find? (fun g => g.train_title == n) with
    | none =>
        rw [hgroups] at hfind
        exact absurd ((find?_title_mkGroups_eq_none n (nomers h) 1).mp hfind)
          (not_not_intro hn)
    | some g =>
        rw [add_train_found hfind]
        apply insert_train_of_fk_false
        rw [← Bool.not_eq_true, fk_satisfied_iff, hgroups, htrainseq,
          mem_map_id_mkGroups]
        omega
  · rw [if_neg hn]
    have hfind : (stateOf h).groups.find? (fun g => g.train_title == n) = none := by
      rw [hgroups]
      exact (find?_title_mkGroups_eq_none n (nomers h) 1).mpr hn
    rw [add_train_not_found hfind]
    have hnom : nomers (h ++ [⟨p, n, t⟩]) = nomers h ++ [n] := by
      simp [nomers]
    have hg2 :
        (stateOf h).groups ++ [(⟨(stateOf h).typeSeq, n⟩ : GroupRow)] =
          mkGroups 1 (nomers h ++ [n]) := by
      rw [mkGroups_append n (nomers h) 1, hlen, hgroups, htype]
      rw [show 1 + h.length = h.length + 1 from Nat.add_comm 1 h.length]
    have hfk :
        fk_satisfied
          { stateOf h with
              groups := (stateOf h).groups ++ [⟨(stateOf h).typeSeq, n⟩],
              typeSeq := (stateOf h).typeSeq + 1 }
          ({ stateOf h with
              groups := (stateOf h).groups ++ [⟨(stateOf h).typeSeq, n⟩],
              typeSeq := (stateOf h).typeSeq + 1 } : DBState).trainSeq = true := by
      rw [fk_satisfied_iff]
      show (h.length + 1) ∈
        ((stateOf h).groups ++ [(⟨(stateOf h).typeSeq, n⟩ : GroupRow)]).map
          GroupRow.train_id
      rw [hg2, mem_map_id_mkGroups]
      constructor
      · omega
      · rw [List.length_append, hlen]
        simp only [List.length_cons, List.length_nil]
        omega
    rw [insert_train_of_fk_true p (stateOf h).typeSeq t hfk]
    rw [Option.some.injEq]
    have hmk : stateOf (h ++ [⟨p, n, t⟩]) =
        DBState.mk (mkGroups 1 (nomers (h ++ [⟨p, n, t⟩])))
          (mkTrains 1 (h ++ [⟨p, n, t⟩]))
          ((h ++ [(⟨p, n, t⟩ : Row)]).length + 1)
          ((h ++ [(⟨p, n, t⟩ : Row)]).length + 1) := rfl
    rw [hmk, hnom, mkTrains_append ⟨p, n, t⟩ h 1]
    rw [DBState.mk.injEq]
    refine ⟨hg2, ?_, ?_, ?_⟩
    · show mkTrains 1 h ++ [(⟨h.length + 1, p, h.length + 1, t⟩ : TrainRow)] =
        mkTrains 1 h ++ [(⟨1 + h.length, p, 1 + h.length, t⟩ : TrainRow)]
      rw [show 1 + h.length = h.length + 1 from Nat.add_comm 1 h.length]
    · show h.length + 1 + 1 = (h ++ [(⟨p, n, t⟩ : Row)]).length + 1
      rw [List.length_append]
      simp only [List.length_cons, List.length_nil]
    · show h.length + 1 + 1 = (h ++ [(⟨p, n, t⟩ : Row)]).length + 1
      rw [List.length_append]
      simp only [List.length_cons, List.length_nil]

theorem nomers_append (h : List Row) (e : Row) :
    nomers (h ++ [e]) = nomers h ++ [e.nomer] := by
  simp [nomers]

/-- Every reachable database state is the canonical state of a history of
requests with pairwise distinct nomer values. -/
theorem reachable_stateOf {s : DBState} (hr : Reachable s) :
    ∃ h : List Row, (nomers h).Nodup ∧ s = stateOf h := by
  induction hr with
  | init => exact ⟨[], List.nodup_nil, rfl⟩
  | @step s s' p n t hr hadd ih =>
      obtain ⟨h, hnd, rfl⟩ := ih
      rw [add_train_stateOf] at hadd
      by_cases hn : n ∈ nomers h
      · rw [if_pos hn] at hadd
        exact absurd hadd (by simp)
      · rw [if_neg hn] at hadd
        refine ⟨h ++ [⟨p, n, t⟩], ?_, (Option.some.inj hadd).symm⟩
        rw [show nomers (h ++ [⟨p, n, t⟩]) = nomers h ++ [n] from
          nomers_append h ⟨p, n, t⟩]
        exact List.Nodup.append hnd (List.nodup_singleton n)
          (List.disjoint_singleton.mpr hn)

/-- Canonical form of `run`: executing a request list from a canonical state
lands in a canonical state whose nomer set is the union of the start's and
the requests'. -/
theorem run_stateOf (es : List Row) :
    ∀ h : List Row, (nomers h).Nodup →
      ∃ hh : List Row, (nomers hh).Nodup ∧
        run (stateOf h) es = stateOf hh ∧
        ∀ n : Int, n ∈ nomers hh ↔ (n ∈ nomers h ∨ n ∈ nomers es) := by
  induction es with
  | nil =>
      intro h hnd
      refine ⟨h, hnd, rfl, fun n => ?_⟩
      simp [nomers]
  | cons e es ih =>
      intro h hnd
      have hcons : nomers (e :: es) = e.nomer :: nomers es := rfl
      by_cases hn : e.nomer ∈ nomers h
      · have hrun : run (stateOf h) (e :: es) = run (stateOf h) es := by
          show run ((add_train (stateOf h) e.punkt e.nomer e.time).getD
            (stateOf h)) es = run (stateOf h) es
          rw [add_train_stateOf, if_pos hn]
          rfl
        obtain ⟨hh, hnd2, hrun2, hmem⟩ := ih h hnd
        refine ⟨hh, hnd2, hrun.trans hrun2, fun n => ?_⟩
        rw [hmem n, hcons]
        simp only [List.mem_cons]
        constructor
        · rintro (hc | hc)
          · exact Or.inl hc
          · exact Or.inr (Or.inr hc)
        · rintro (hc | hc | hc)
          · exact Or.inl hc
          · refine Or.inl ?_
            rw [hc]
            exact hn
          · exact Or.inr hc
      · have hrun : run (stateOf h) (e :: es) =
            run (stateOf (h ++ [⟨e.punkt, e.nomer, e.time⟩])) es := by
          show run ((add_train (stateOf h) e.punkt e.nomer e.time).getD
            (stateOf h)) es = _
          rw [add_train_stateOf, if_neg hn]
          rfl
        have happ : nomers (h ++ [⟨e.punkt, e.nomer, e.time⟩]) =
            nomers h ++ [e.nomer] :=
          nomers_append h ⟨e.punkt, e.nomer, e.time⟩
        have hnd2 : (nomers (h ++ [⟨e.punkt, e.nomer, e.time⟩])).Nodup := by
          rw [happ]
          exact List.Nodup.append hnd (List.nodup_singleton e.nomer)
            (List.disjoint_singleton.mpr hn)
        obtain ⟨hh, hnd3, hrun2, hmem⟩ := ih (h ++ [⟨e.punkt, e.nomer, e.time⟩]) hnd2
        refine ⟨hh, hnd3, hrun.trans hrun2, fun n => ?_⟩
        rw [hmem n, happ, hcons]
        simp only [List.mem_append, List.mem_singleton, List.mem_cons]
        tauto

/-- Reading back a canonical state: the join on `train_id` pairs the i-th
train row with the i-th group row, so `select_all` returns exactly the
history. -/
theorem mkTrains_filterMap_join (ns : List Int) :
    ∀ (es : List Row) (k : Nat), 1 ≤ k →
      (∀ i : Nat, i < es.length →
        ns.get? (k - 1 + i) = (es.get? i).map Row.nomer) →
      (mkTrains k es).filterMap (join_group (mkGroups 1 ns)) = es := by
  intro es
  induction es with
  | nil => intro k _ _; rfl
  | cons e es ih =>
      intro k hk hns
      have h0 : ns.get? (k - 1) = some e.nomer := hns 0 (by simp)
      rw [show mkTrains k (e :: es) =
        ⟨k, e.punkt, k, e.time⟩ :: mkTrains (k + 1) es from rfl]
      have hjoin : join_group (mkGroups 1 ns) ⟨k, e.punkt, k, e.time⟩ = some e := by
        show ((mkGroups 1 ns).find? (fun g => g.train_id == k)).map
          (fun g => (⟨e.punkt, g.train_title, e.time⟩ : Row)) = some e
        rw [find?_id_mkGroups ns 1 k hk, h0]
        rfl
      rw [List.filterMap_cons_some hjoin]
      congr 1
      apply ih (k + 1) (by omega)
      intro i hi
      have hsucc := hns (i + 1) (by simpa using Nat.succ_lt_succ hi)
      rw [show k + 1 - 1 + i = k - 1 + (i + 1) from by omega]
      rw [hsucc]
      rfl

theorem select_all_stateOf (h : List Row) : select_all (stateOf h) = h := by
  show (mkTrains 1 h).filterMap (join_group (mkGroups 1 (nomers h))) = h
  apply mkTrains_filterMap_join (nomers h) h 1 (Nat.le_refl 1)
  intro i hi
  show (h.map Row.nomer).get? (0 + i) = (h.get? i).map Row.nomer
  rw [Nat.zero_add]
  exact List.get?_map Row.nomer h i

/-- Per-row body of the `select_by_num` query: the join on `train_id`
followed by the `WHERE groups.train_title = ?` test. -/
def by_num_fn (groups : List GroupRow) (n : Int) (tr : TrainRow) : Option Row :=
  (groups.find? (fun g => g.train_id == tr.train_id)).bind
    (fun g =>
      if g.train_title == n
      then some ⟨tr.train_punkt, g.train_title, tr.train_time⟩
      else none)

theorem select_by_num_eq_filterMap (s : DBState) (n : Int) :
    select_by_num s n = s.trains.filterMap (by_num_fn s.groups n) := rfl

/-- The WHERE clause of `select_by_num` relative to `select_all`, at the
list-algebra level: filtering after the join is the same as the joined query
with the title test folded in. -/
theorem filterMap_by_num (groups : List GroupRow) (n : Int) :
    ∀ l : List TrainRow,
      l.filterMap (by_num_fn groups n) =
        (l.filterMap (join_group groups)).filter (fun r => r.nomer == n) := by
  intro l
  induction l with
  | nil => rfl
  | cons tr l ih =>
      cases hfind : groups.find? (fun g => g.train_id == tr.train_id) with
      | none =>
          have h1 : join_group groups tr = none := by
            unfold join_group
            rw [hfind]
            rfl
          have h2 : by_num_fn groups n tr = none := by
            unfold by_num_fn
            rw [hfind]
            rfl
          rw [List.filterMap_cons_none h2, List.filterMap_cons_none h1]
          exact ih
      | some g =>
          have h1 : join_group groups tr =
              some ⟨tr.train_punkt, g.train_title, tr.train_time⟩ := by
            unfold join_group
            rw [hfind]
            rfl
          by_cases hgn : g.train_title = n
          · have h2 : by_num_fn groups n tr =
                some ⟨tr.train_punkt, g.train_title, tr.train_time⟩ := by
              unfold by_num_fn
              rw [hfind]
              show (if g.train_title == n
                then some (⟨tr.train_punkt, g.train_title, tr.train_time⟩ : Row)
                else none) = _
              rw [if_pos (beq_iff_eq.mpr hgn)]
            rw [List.filterMap_cons_some h2, List.filterMap_cons_some h1]
            rw [List.filter_cons_of_pos (by simpa using hgn)]
            congr 1
          · have h2 : by_num_fn groups n tr = none := by
              unfold by_num_fn
              rw [hfind]
              show (if g.train_title == n
                then some (⟨tr.train_punkt, g.train_title, tr.train_time⟩ : Row)
                else none) = _
              rw [if_neg (by simpa using hgn)]
            rw [List.filterMap_cons_none h2, List.filterMap_cons_some h1]
            rw [List.filter_cons_of_neg (by simpa using hgn)]
            exact ih

theorem select_by_num_eq_filter (s : DBState) (n : Int) :
    select_by_num s n = (select_all s).filter (fun r => r.nomer == n) := by
  rw [select_by_num_eq_filterMap]
  unfold select_all
  exact filterMap_by_num s.groups n s.trains

/-!  The schema initializer `create_db` (duckDB.py lines 46-86), modelled at
the catalog level for the idempotence claims. -/

/-- Catalog of a DuckDB database file: the names of the sequences and the
tables present. -/
structure Catalog where
  sequences : List String
  tables : List String
  deriving DecidableEq

/-- Semantics of the `IF NOT EXISTS` clause of `CREATE SEQUENCE` and
`CREATE TABLE`: create the object when absent, leave the catalog unchanged —
without error — when an object of that name already exists. -/
def create_if_not_exists (xs : List String) (x : String) : List String :=
  if x ∈ xs then xs else xs ++ [x]

/-- Function `create_db` of duckDB.py (lines 46-86) at the catalog level:
its four DDL statements in source order — sequences `type_st` and
`train_st`, tables `groups` and `trains`, each `IF NOT EXISTS`. -/
def create_db (c : Catalog) : Catalog :=
  { sequences :=
      create_if_not_exists (create_if_not_exists c.sequences "type_st")
        "train_st",
    tables :=
      create_if_not_exists (create_if_not_exists c.tables "groups")
        "trains" }

/-- A FOREIGN KEY clause of a CREATE TABLE statement: the constrained table
and column, and the referenced table and column. -/
structure ForeignKeyClause where
  table : String
  column : String
  ref_table : String
  ref_column : String
  deriving DecidableEq

/-- The foreign-key clauses declared by `create_db`: exactly one, on line 81
of duckDB.py — `FOREIGN KEY(train_id) REFERENCES groups(train_id)` in the
`trains` table. -/
def created_foreign_keys : List ForeignKeyClause :=
  [⟨"trains", "train_id", "groups", "train_id"⟩]

/-!  The CLI dispatcher `main` (duckDB.py lines 196-286). -/

/-- One parsed subcommand.  `add` carries `-p` (punkt), `-n` (nomer, parsed
as int) and `-t` (time); `display` carries nothing; `select` carries the
`-s` value, which is handed to `select_by_num` as the title filter.
(The argument parser also permits omitting `-n`, submitting SQL NULL — a
path no claim exercises, so it is not modelled.) -/
inductive Command where
  | add (punkt : String) (nomer : Int) (time : String)
  | display
  | select (value : Int)
  deriving DecidableEq

/-- Result of `parser.parse_args`: `command` is the chosen subcommand, or
`none` when the command line names no subcommand; `db` is the `--db` value.
Because `--db` is declared only on the `file_parser` parent of the three
subparsers (duckDB.py lines 198-205 and 219-266), the namespace returned for
an invocation without a subcommand has no `db` attribute at all — modelled
by `db = none`; with a subcommand present `db` is always set (defaulting to
`trains.db` in the working directory). -/
structure ParsedArgs where
  command : Option Command
  db : Option String
  deriving DecidableEq

/-- Parsed arguments of an invocation naming no subcommand (and not
`--version`, which exits inside `parse_args` before `main` continues). -/
def parse_no_subcommand : ParsedArgs := ⟨none, none⟩

/-- Failure modes of a `main` invocation: the `args.db` access raising
AttributeError at line 272, or a database statement raising uncaught (the
foreign-key constraint violation of the record insert). -/
inductive RunError where
  | attributeError
  | constraintViolation
  deriving DecidableEq

/-- Lines 269-286 of `main`: read `args.db` — raising when the attribute is
absent, before any database file is touched — then run `create_db` on the
file (`file.getD init_db`: open the file, creating it with empty tables when
absent) and dispatch on the subcommand.  Returns the file state after the
invocation together with either the printed lines or the raised error.  (The
`db`-present, `command = none` fall-through cannot be produced by the
argument parser; it is totalized as printing nothing, matching `main`
falling through all branches.) -/
def main_dispatch (args : ParsedArgs) (file : Option DBState) :
    Option DBState × Except RunError (List String) :=
  match args.db with
  | none => (file, Except.error RunError.attributeError)
  | some _ =>
      let s := file.getD init_db
      match args.command with
      | some (Command.add p n t) =>
          match add_train s p n t with
          | some s2 => (some s2, Except.ok [])
          | none => (some s, Except.error RunError.constraintViolation)
      | some Command.display =>
          (some s, Except.ok (display_trains (select_all s)))
      | some (Command.select v) =>
          (some s, Except.ok (display_trains (select_by_num s v)))
      | none => (some s, Except.ok [])

/-- Database state after `add_train ("Moscow", 101, "14:30")` on a fresh
file: group 1 titled 101, train record 1, both sequences at 2. -/
def db_after_moscow : DBState :=
  ⟨[⟨1, 101⟩], [⟨1, "Moscow", 1, "14:30"⟩], 2, 2⟩

theorem mem_create_if_not_exists (xs : List String) (x : String) :
    x ∈ create_if_not_exists xs x := by
  unfold create_if_not_exists
  by_cases hx : x ∈ xs
  · rw [if_pos hx]
    exact hx
  · rw [if_neg hx]
    exact List.mem_append_right xs (List.mem_singleton.mpr rfl)

theorem mem_create_if_not_exists_of_mem {xs : List String} {y : String}
    (x : String) (hy : y ∈ xs) : y ∈ create_if_not_exists xs x := by
  unfold create_if_not_exists
  by_cases hx : x ∈ xs
  · rw [if_pos hx]
    exact hy
  · rw [if_neg hx]
    exact List.mem_append_left _ hy

theorem create_if_not_exists_of_mem {xs : List String} {x : String}
    (hx : x ∈ xs) : create_if_not_exists xs x = xs := by
  unfold create_if_not_exists
  rw [if_pos hx]

theorem create_db_fixed (c : Catalog) :
    create_db (create_db c) = create_db c := by
  have hseq1 : "type_st" ∈ (create_db c).sequences :=
    mem_create_if_not_exists_of_mem "train_st"
      (mem_create_if_not_exists c.sequences "type_st")
  have hseq2 : "train_st" ∈ (create_db c).sequences :=
    mem_create_if_not_exists (create_if_not_exists c.sequences "type_st")
      "train_st"
  have htab1 : "groups" ∈ (create_db c).tables :=
    mem_create_if_not_exists_of_mem "trains"
      (mem_create_if_not_exists c.tables "groups")
  have htab2 : "trains" ∈ (create_db c).tables :=
    mem_create_if_not_exists (create_if_not_exists c.tables "groups") "trains"
  have hstep : create_db (create_db c) =
      Catalog.mk
        (create_if_not_exists
          (create_if_not_exists (create_db c).sequences "type_st") "train_st")
        (create_if_not_exists
          (create_if_not_exists (create_db c).tables "groups") "trains") := rfl
  rw [hstep, create_if_not_exists_of_mem hseq1,
    create_if_not_exists_of_mem hseq2, create_if_not_exists_of_mem htab1,
    create_if_not_exists_of_mem htab2]

theorem create_db_iterate (c : Catalog) :
    ∀ N : Nat, 1 ≤ N → create_db^[N] c = create_db c := by
  intro N
  induction N with
  | zero => intro h; omega
  | succ N ih =>
      intro _
      rcases Nat.eq_zero_or_pos N with h0 | h0
      · subst h0
        rw [Function.iterate_one]
      · rw [Function.iterate_succ_apply', ih h0, create_db_fixed]

/-!  Theorems for the individual specification claims. -/

/-- Claim C1, counterexample: the only foreign-key clause in the DDL of the
Schema Initializer `create_db` constrains column `train_id` of `trains`, not
the `train_nomer` column, so no foreign-key constraint created by
`create_db` makes `train_nomer` reference `groups`. -/
theorem c1_fk_not_on_train_nomer :
    created_foreign_keys = [⟨"trains", "train_id", "groups", "train_id"⟩] ∧
    created_foreign_keys.all (fun fk => fk.column != "train_nomer") = true :=
  ⟨rfl, by decide⟩

/-- Claim C1 as amended: in every reachable database state every train
record's `train_nomer` value is the id of an existing group row — an
invariant maintained by the insert logic of `add_train`, not by the schema,
since the single foreign key declared by `create_db` is on
`trains.train_id`, not on `train_nomer`. -/
theorem c1_train_nomer_references_group {s : DBState} (hs : Reachable s) :
    (∀ tr ∈ s.trains, tr.train_nomer ∈ s.groups.map GroupRow.train_id) ∧
    created_foreign_keys.all (fun fk => fk.column != "train_nomer") = true := by
  obtain ⟨h, hnd, rfl⟩ := reachable_stateOf hs
  refine ⟨?_, by decide⟩
  intro tr htr
  have hm := mem_mkTrains tr h 1 htr
  rw [show (stateOf h).groups = mkGroups 1 (nomers h) from rfl,
    mem_map_id_mkGroups]
  have hlen : (nomers h).length = h.length := List.length_map _ _
  omega

/-- Witness for the amended claim C1, at the reachable state holding the
single record ("Moscow", 101, "14:30"): that record's `train_nomer` is 1,
the id of the Moscow group row. -/
theorem c1_train_nomer_references_group_witness :
    (1 : Nat) ∈ db_after_moscow.groups.map GroupRow.train_id ∧
    created_foreign_keys.all (fun fk => fk.column != "train_nomer") = true := by
  have h := c1_train_nomer_references_group
    (Reachable.step Reachable.init
      (show add_train init_db "Moscow" 101 "14:30" = some db_after_moscow
        by decide))
  exact ⟨h.1 ⟨1, "Moscow", 1, "14:30"⟩ (by decide), h.2⟩

/-- Claim C2 fails on the code: after adding ("Moscow", 101, "14:30") to a
fresh database — the row is then visible in `select_all` — a second
`add_train` with the same nomer 101 is rejected: the lookup finds group 1,
no new group is inserted, and the record insert with `train_id = 2` violates
the `FOREIGN KEY(train_id)` clause because no group has id 2.  The
transaction aborts, so no row ("Kazan", 101, "09:00") ever becomes
visible. -/
theorem c2_add_then_select_fails_on_repeat :
    add_train init_db "Moscow" 101 "14:30" = some db_after_moscow ∧
    select_all db_after_moscow = [⟨"Moscow", 101, "14:30"⟩] ∧
    add_train db_after_moscow "Kazan" 101 "09:00" = none :=
  ⟨by decide, by decide, by decide⟩

/-- Claim C3 fails on the code at its second `add`: the first `add` and the
`display` behave exactly as the scenario says (a table of five lines whose
single data row shows index 1, Moscow, 101, 14:30), but the second `add`
with the same train number 101 aborts with a foreign-key violation instead
of reusing the group for a second record, and the subsequent `select -s 101`
still shows the single Moscow row. -/
theorem c3_example_scenario :
    main_dispatch ⟨some (Command.add "Moscow" 101 "14:30"), some "trains.db"⟩
        none =
      (some db_after_moscow, Except.ok []) ∧
    main_dispatch ⟨some Command.display, some "trains.db"⟩
        (some db_after_moscow) =
      (some db_after_moscow, Except.ok
        [table_line, header_line, table_line,
          data_line 1 ⟨"Moscow", 101, "14:30"⟩, table_line]) ∧
    main_dispatch ⟨some (Command.add "Kazan" 101 "09:00"), some "trains.db"⟩
        (some db_after_moscow) =
      (some db_after_moscow, Except.error RunError.constraintViolation) ∧
    main_dispatch ⟨some (Command.select 101), some "trains.db"⟩
        (some db_after_moscow) =
      (some db_after_moscow, Except.ok
        [table_line, header_line, table_line,
          data_line 1 ⟨"Moscow", 101, "14:30"⟩, table_line]) :=
  ⟨rfl, rfl, rfl, rfl⟩

/-- Claim C4: under sequential execution of any list of `add_train`
requests, the Groups table holds exactly one row per distinct nomer value
ever supplied — its titles are duplicate-free, and a title is present
exactly when some request supplied it — and a further `add_train` with an
already-present nomer leaves the Groups table unchanged (it reuses the
looked-up group id rather than inserting a Group row). -/
theorem c4_groups_one_row_per_nomer (es : List Row) :
    ((run init_db es).groups.map GroupRow.train_title).Nodup ∧
    (∀ n : Int, n ∈ (run init_db es).groups.map GroupRow.train_title ↔
      n ∈ nomers es) ∧
    (∀ (p t : String) (n : Int),
      n ∈ (run init_db es).groups.map GroupRow.train_title →
      ((add_train (run init_db es) p n t).getD (run init_db es)).groups =
        (run init_db es).groups) := by
  obtain ⟨hh, hnd, hrun, hmem⟩ := run_stateOf es [] (by simp [nomers])
  rw [show init_db = stateOf [] from rfl, hrun]
  have htitles : (stateOf hh).groups.map GroupRow.train_title = nomers hh :=
    mkGroups_map_title (nomers hh) 1
  refine ⟨?_, ?_, ?_⟩
  · rw [htitles]
    exact hnd
  · intro n
    rw [htitles, hmem n]
    simp [nomers]
  · intro p t n hn
    rw [htitles] at hn
    rw [add_train_stateOf, if_pos hn]
    rfl

/-- Witness for claim C4 at the one-request history ("Moscow", 101,
"14:30"): the single group title 101 is duplicate-free and present, and a
repeat `add_train` with nomer 101 leaves the Groups table unchanged. -/
theorem c4_groups_one_row_per_nomer_witness :
    ((run init_db [⟨"Moscow", 101, "14:30"⟩]).groups.map
      GroupRow.train_title).Nodup ∧
    (101 : Int) ∈ (run init_db [⟨"Moscow", 101, "14:30"⟩]).groups.map
      GroupRow.train_title ∧
    ((add_train (run init_db [⟨"Moscow", 101, "14:30"⟩]) "Kazan" 101
        "09:00").getD (run init_db [⟨"Moscow", 101, "14:30"⟩])).groups =
      (run init_db [⟨"Moscow", 101, "14:30"⟩]).groups := by
  have h := c4_groups_one_row_per_nomer [⟨"Moscow", 101, "14:30"⟩]
  exact ⟨h.1, (h.2.1 101).mpr (by decide),
    h.2.2 "Kazan" "09:00" 101 ((h.2.1 101).mpr (by decide))⟩

/-- Claim C5: for every database state, `select_by_num` returns exactly the
rows of `select_all` whose train-number field equals the filter value —
equal as lists, hence as multisets, in the same projection — and for a nomer
never supplied by any request of a sequential execution the result is
empty. -/
theorem c5_select_by_num_filter :
    (∀ (s : DBState) (n : Int),
      select_by_num s n = (select_all s).filter (fun r => r.nomer == n)) ∧
    (∀ (es : List Row) (n : Int), n ∉ nomers es →
      select_by_num (run init_db es) n = []) := by
  refine ⟨select_by_num_eq_filter, ?_⟩
  intro es n hn
  obtain ⟨hh, hnd, hrun, hmem⟩ := run_stateOf es [] (by simp [nomers])
  rw [show init_db = stateOf [] from rfl, hrun, select_by_num_eq_filter,
    select_all_stateOf]
  rw [List.filter_eq_nil_iff]
  intro r hr hbeq
  have hrn : r.nomer ∈ nomers hh := List.mem_map_of_mem Row.nomer hr
  rw [hmem r.nomer] at hrn
  rcases hrn with hc | hc
  · simp [nomers] at hc
  · rw [beq_iff_eq.mp hbeq] at hc
    exact hn hc

/-- Witness for claim C5: the filter identity at the Moscow state with
filter value 101, and emptiness for the never-inserted nomer 999. -/
theorem c5_select_by_num_filter_witness :
    select_by_num db_after_moscow 101 =
      (select_all db_after_moscow).filter (fun r => r.nomer == 101) ∧
    select_by_num (run init_db [⟨"Moscow", 101, "14:30"⟩]) 999 = [] :=
  ⟨c5_select_by_num_filter.1 db_after_moscow 101,
   c5_select_by_num_filter.2 [⟨"Moscow", 101, "14:30"⟩] 999 (by decide)⟩

/-- Claim C6: in every reachable state every `trains` row's primary-key id
equals the id of some `groups` row — this is what the schema's
`FOREIGN KEY(train_id) REFERENCES groups(train_id)` constrains — and the
record insert is rejected by the database whenever the next record-sequence
value matches no group id. -/
theorem c6_train_id_fk :
    (∀ s : DBState, Reachable s →
      ∀ tr ∈ s.trains, tr.train_id ∈ s.groups.map GroupRow.train_id) ∧
    (∀ (s : DBState) (p : String) (gid : Nat) (t : String),
      s.trainSeq ∉ s.groups.map GroupRow.train_id →
      insert_train s p gid t = none) := by
  constructor
  · intro s hs tr htr
    obtain ⟨h, hnd, rfl⟩ := reachable_stateOf hs
    have hm := mem_mkTrains tr h 1 htr
    rw [show (stateOf h).groups = mkGroups 1 (nomers h) from rfl,
      mem_map_id_mkGroups]
    have hlen : (nomers h).length = h.length := List.length_map _ _
    omega
  · intro s p gid t hnot
    apply insert_train_of_fk_false
    rw [← Bool.not_eq_true, fk_satisfied_iff]
    exact hnot

/-- Witness for claim C6 at the Moscow state: record 1's id is a group id,
and the insert of a second record (id 2, no group 2) is rejected. -/
theorem c6_train_id_fk_witness :
    (1 : Nat) ∈ db_after_moscow.groups.map GroupRow.train_id ∧
    insert_train db_after_moscow "Kazan" 1 "09:00" = none :=
  ⟨c6_train_id_fk.1 db_after_moscow
    (Reachable.step Reachable.init
      (show add_train init_db "Moscow" 101 "14:30" = some db_after_moscow
        by decide))
    ⟨1, "Moscow", 1, "14:30"⟩ (by decide),
   c6_train_id_fk.2 db_after_moscow "Kazan" 1 "09:00" (by decide)⟩

/-- Claim C7: schema initialization is idempotent — for every prior catalog
state of the database file and every N ≥ 1, N applications of `create_db`
give the same catalog as one — it never errors (it is a total function),
and one application leaves both sequences and both tables present. -/
theorem c7_create_db_idempotent (c : Catalog) (N : Nat) (hN : 1 ≤ N) :
    create_db^[N] c = create_db c ∧
    "type_st" ∈ (create_db c).sequences ∧
    "train_st" ∈ (create_db c).sequences ∧
    "groups" ∈ (create_db c).tables ∧
    "trains" ∈ (create_db c).tables :=
  ⟨create_db_iterate c N hN,
   mem_create_if_not_exists_of_mem "train_st"
     (mem_create_if_not_exists c.sequences "type_st"),
   mem_create_if_not_exists (create_if_not_exists c.sequences "type_st")
     "train_st",
   mem_create_if_not_exists_of_mem "trains"
     (mem_create_if_not_exists c.tables "groups"),
   mem_create_if_not_exists (create_if_not_exists c.tables "groups")
     "trains"⟩

/-- Witness for claim C7: two applications on an empty catalog equal one,
which contains the two sequences and the two tables. -/
theorem c7_create_db_idempotent_witness :
    create_db^[2] (Catalog.mk [] []) = create_db (Catalog.mk [] []) ∧
    "type_st" ∈ (create_db (Catalog.mk [] [])).sequences ∧
    "train_st" ∈ (create_db (Catalog.mk [] [])).sequences ∧
    "groups" ∈ (create_db (Catalog.mk [] [])).tables ∧
    "trains" ∈ (create_db (Catalog.mk [] [])).tables :=
  c7_create_db_idempotent (Catalog.mk [] []) 2 (by decide)

/-- Claim C8: the renderer prints nothing at all for an empty sequence, and
for a sequence of N ≥ 1 records prints exactly N + 4 lines — top rule,
header, middle rule, N data rows, bottom rule. -/
theorem c8_display_trains_line_count (rs : List Row) :
    (rs = [] → display_trains rs = []) ∧
    (rs ≠ [] → (display_trains rs).length = rs.length + 4) := by
  constructor
  · rintro rfl
    rfl
  · intro hne
    cases rs with
    | nil => exact absurd rfl hne
    | cons r rs =>
        simp only [display_trains, List.length_cons, List.length_append,
          List.length_map, List.enumFrom_length, List.length_nil]

/-- Witness for claim C8: the empty rendering, and the 5 = 1 + 4 lines of a
one-record rendering. -/
theorem c8_display_trains_line_count_witness :
    display_trains [] = [] ∧
    (display_trains [⟨"Moscow", 101, "14:30"⟩]).length = 1 + 4 :=
  ⟨(c8_display_trains_line_count []).1 rfl,
   (c8_display_trains_line_count [⟨"Moscow", 101, "14:30"⟩]).2 (by decide)⟩

/-- Claim C9, counterexample: a 31-character destination is rendered at full
width.  `fmt_left 30` — the translation of the `{:<30}` specifier applied to
the destination on line 36 — pads but never truncates, so the destination
field occupies 31 characters rather than 30, and the whole data row is 88
characters instead of the 87 of a row whose destination fits. -/
theorem c9_long_destination_not_truncated :
    fmt_left 30 "Novosibirsk-Tolmachevo-Airport." =
      "Novosibirsk-Tolmachevo-Airport." ∧
    ("Novosibirsk-Tolmachevo-Airport." : String).length = 31 ∧
    (data_line 1 ⟨"Novosibirsk-Tolmachevo-Airport.", 101, "14:30"⟩).length
      = 88 ∧
    (data_line 1 ⟨"Moscow", 101, "14:30"⟩).length = 87 :=
  ⟨by decide, by decide, by decide, by decide⟩

/-- Claim C9 as amended: the destination field of a data row is the
destination left-aligned, padded on the right with spaces to a minimum width
of 30 — destinations of at most 30 characters occupy exactly 30 characters,
while longer destinations are rendered in full, not truncated. -/
theorem c9_destination_field (s : String) :
    fmt_left 30 s = s ++ String.mk (List.replicate (30 - s.length) ' ') ∧
    (s.length ≤ 30 → (fmt_left 30 s).length = 30) ∧
    (30 ≤ s.length → fmt_left 30 s = s) := by
  have hrep : ∀ m : Nat, (String.mk (List.replicate m ' ')).length = m := by
    intro m
    show (List.replicate m ' ').length = m
    simp
  refine ⟨rfl, ?_, ?_⟩
  · intro hle
    show (s ++ String.mk (List.replicate (30 - s.length) ' ')).length = 30
    rw [String.length_append, hrep]
    omega
  · intro hge
    show s ++ String.mk (List.replicate (30 - s.length) ' ') = s
    rw [show 30 - s.length = 0 from by omega]
    show s ++ "" = s
    exact String.append_empty s

/-- Witness for the amended claim C9: "Moscow" is padded to exactly 30
characters; the 31-character destination is returned unchanged. -/
theorem c9_destination_field_witness :
    (fmt_left 30 "Moscow").length = 30 ∧
    fmt_left 30 "Novosibirsk-Tolmachevo-Airport." =
      "Novosibirsk-Tolmachevo-Airport." :=
  ⟨(c9_destination_field "Moscow").2.1 (by decide),
   (c9_destination_field "Novosibirsk-Tolmachevo-Airport.").2.2 (by decide)⟩

/-- Claim C10: an invocation naming no subcommand (and not `--version`)
fails with AttributeError at the `args.db` access — the parsed namespace has
no `db` attribute, since `--db` is declared only on the subcommand parsers —
before any database file is opened or created: the file state is returned
unchanged, so no file comes into existence. -/
theorem c10_no_subcommand_attribute_error (file : Option DBState) :
    main_dispatch parse_no_subcommand file =
      (file, Except.error RunError.attributeError) := rfl
